import Mathlib

/-!
Verification of the Climago core logic: comfort scoring, smart alerts,
gear recommendation, advice/verdict text parsing, and the AI response
cache, shallowly embedded from `script.js` (server + client) and the
`renderVerdict` listing in `README.md`.

Numbers are modelled with `ℚ` (JS numbers on the small integral values
involved behave exactly), strings with Lean `String`/`List Char`.
-/

namespace Climago

/-- ASCII whitespace as matched by JS `\s` / `trim` on the inputs in play. -/
def isWs (c : Char) : Bool :=
  c == ' ' || c == '\t' || c == '\n' || c == '\r' || c == '\x0b' || c == '\x0c'

/-- Drop leading whitespace characters. -/
def dropWs (l : List Char) : List Char := l.dropWhile isWs

/-- Trim whitespace from both ends of a character list, like JS `trim()`. -/
def trimChars (l : List Char) : List Char :=
  ((l.dropWhile isWs).reverse.dropWhile isWs).reverse

/-- JS `String.prototype.trim`. -/
def jsTrim (s : String) : String := String.mk (trimChars s.data)

/-- Case-insensitive match of `pat` against the start of `s`;
returns the remaining characters on success (ASCII case folding,
as the `i` regex flag behaves on these patterns). -/
def ciStarts : List Char → List Char → Option (List Char)
  | [], s => some s
  | _ :: _, [] => none
  | p :: ps, c :: cs => if p.toUpper == c.toUpper then ciStarts ps cs else none

/-- Case-sensitive match of `pat` against the start of `s`. -/
def csStarts : List Char → List Char → Bool
  | [], _ => true
  | _ :: _, [] => false
  | p :: ps, c :: cs => p == c && csStarts ps cs

/-- Case-sensitive substring test (JS `String.prototype.includes`,
and truthiness of `s.match(/lit/)` for a literal pattern). -/
def csContains (s pat : List Char) : Bool :=
  match s with
  | [] => csStarts pat []
  | _ :: rest => csStarts pat s || csContains rest pat

/-- Case-insensitive substring test (JS `/lit/i.test(s)`). -/
def ciHas (s pat : List Char) : Bool :=
  match s with
  | [] => pat.isEmpty
  | _ :: rest => (ciStarts pat s).isSome || ciHas rest pat

/-- JS `s.includes(pat)` on strings. -/
def jsIncludes (s pat : String) : Bool := csContains s.data pat.data

/-- JS `/pat/i.test(s)` on strings. -/
def testCI (pat s : String) : Bool := ciHas s.data pat.data

/-- JS `String.prototype.toLowerCase` (ASCII case folding). -/
def jsToLower (s : String) : String := String.mk (s.data.map Char.toLower)

/-! ## Comfort Scoring Engine (`scoreWeather` in `script.js`) -/

/-- JS `Math.min` on two (non-NaN) numbers. -/
def jsMin (a b : ℚ) : ℚ := if a ≤ b then a else b

/-- JS `Math.max` on two (non-NaN) numbers. -/
def jsMax (a b : ℚ) : ℚ := if b ≤ a then a else b

/-- Truthiness of `cond.match(/Rain|Snow|Thunder/)` in `scoreWeather`:
a case-sensitive substring search for any of the three tokens. -/
def hasRST (cond : String) : Bool :=
  jsIncludes cond "Rain" || jsIncludes cond "Snow" || jsIncludes cond "Thunder"

/-- The running score of `scoreWeather` just before the condition-penalty
step and the final clamp: base 5, temperature bonus tier, humidity bonus,
temperature penalty, humidity penalty. -/
def scorePre (temp hum : ℚ) : ℚ :=
  let s1 : ℚ := 5
  let s2 := if 18 ≤ temp ∧ temp ≤ 26 then s1 + 3
            else if 10 ≤ temp ∧ temp < 18 then s1 + 1
            else if 26 < temp ∧ temp ≤ 32 then s1 + 1
            else s1
  let s3 := if 30 ≤ hum ∧ hum ≤ 60 then s2 + 2 else s2
  let s4 := if temp > 35 ∨ temp < 0 then s3 - 3 else s3
  let s5 := if hum > 80 then s4 - 1 else s4
  s5

/-- `scoreWeather(data)` from `script.js` (identical copy in `README.md`):
base 5, additive bonuses/penalties, condition penalty via
`data.weather[0].main.match(/Rain|Snow|Thunder/)`, clamped once at the end
with `Math.min(10, Math.max(0, score))`. -/
def scoreWeather (temp hum : ℚ) (cond : String) : ℚ :=
  let s5 := scorePre temp hum
  let s6 := if hasRST cond then s5 - 2 else s5
  jsMin 10 (jsMax 0 s6)

/-- Claim C1 (counterexample): the condition penalty is NOT applied
case-insensitively. At temp 22, humidity 45, the all-lowercase condition
"rain" yields score 10 (no penalty) while "Rain" yields 8 (penalty). -/
theorem C1_case_insensitive_penalty_fails :
    scoreWeather 22 45 "rain" = 10 ∧ scoreWeather 22 45 "Rain" = 8 := by
  have hr : hasRST "rain" = false := by decide
  have hR : hasRST "Rain" = true := by decide
  constructor
  · norm_num [scoreWeather, scorePre, jsMin, jsMax, hr]
  · norm_num [scoreWeather, scorePre, jsMin, jsMax, hR]

/-- Claim C1 (amended): the −2.0 condition penalty is applied exactly when
the primary condition contains `Rain`, `Snow`, or `Thunder` as a
case-SENSITIVE substring; then the score is the clamp of the
condition-independent running score minus 2. -/
theorem C1_condition_penalty_case_sensitive (temp hum : ℚ) (cond : String)
    (h : hasRST cond = true) :
    scoreWeather temp hum cond = jsMin 10 (jsMax 0 (scorePre temp hum - 2)) := by
  simp [scoreWeather, h]

/-- Witness for C1: the amended theorem evaluated at temp 22, humidity 45,
condition "Rain" (penalty applies, score 8). -/
theorem C1_condition_penalty_case_sensitive_witness :
    hasRST "Rain" = true ∧
      scoreWeather 22 45 "Rain" = jsMin 10 (jsMax 0 (scorePre 22 45 - 2)) :=
  ⟨by decide, C1_condition_penalty_case_sensitive 22 45 "Rain" (by decide)⟩

/-- Claim C2: for every temperature, humidity and condition string, the
comfort score lies in the closed interval [0, 10] (single final clamp). -/
theorem C2_score_clamped (temp hum : ℚ) (cond : String) :
    0 ≤ scoreWeather temp hum cond ∧ scoreWeather temp hum cond ≤ 10 := by
  unfold scoreWeather jsMin jsMax
  dsimp only
  constructor <;> split_ifs <;> linarith

/-! ## Smart Alert Engine (`getSmartAlerts` in `script.js`) -/

/-- `getSmartAlerts(data, aqiData, score)`: each rule is checked
independently (the two temperature pairs are else-if chains) and pushes
its message in source order. `aqi` is `none` when `aqiData`/`aqiData.list`
is absent. -/
def getSmartAlerts (temp hum wind : ℚ) (condition : String) (aqi : Option ℤ)
    (score : ℚ) : List String :=
  (if temp > 40 then ["Extreme heat warning — stay indoors and hydrate."]
   else if temp > 35 then ["High heat advisory — avoid prolonged sun exposure."]
   else [])
  ++ (if temp < -5 then ["Severe cold warning — frostbite risk."]
      else if temp < 5 then ["Cold advisory — dress warmly."]
      else [])
  ++ (if wind > 15 then ["Strong wind advisory — secure loose objects."] else [])
  ++ (if hum > 85 then ["Very high humidity — may feel uncomfortable."] else [])
  ++ (if testCI "Thunder" condition then ["Thunderstorm warning — stay indoors."] else [])
  ++ (if testCI "Snow" condition then ["Snowfall — drive cautiously."] else [])
  ++ (if testCI "Rain" condition ∧ wind > 10 then
        ["Heavy rain with wind — carry sturdy umbrella."] else [])
  ++ (match aqi with
      | some a =>
          (if a ≥ 4 then ["Air quality is poor — wear a mask outdoors."] else [])
          ++ (if a ≥ 5 then ["Hazardous air quality — avoid all outdoor activities."] else [])
      | none => [])
  ++ (if score < 3 then ["Overall conditions are challenging — plan accordingly."] else [])

/-- Claim C6: at temp 45, humidity 90, wind 20, condition "Thunderstorm",
AQI 5 (score computed by `scoreWeather`), the alert list contains the six
pairwise-distinct alerts for heat, wind, humidity, thunderstorm, poor air
quality, and hazardous air quality — both AQI alerts simultaneously. -/
theorem C6_alert_rule_independence :
    ([ "Extreme heat warning — stay indoors and hydrate.",
       "Strong wind advisory — secure loose objects.",
       "Very high humidity — may feel uncomfortable.",
       "Thunderstorm warning — stay indoors.",
       "Air quality is poor — wear a mask outdoors.",
       "Hazardous air quality — avoid all outdoor activities."] : List String).Nodup
    ∧ "Extreme heat warning — stay indoors and hydrate."
        ∈ getSmartAlerts 45 90 20 "Thunderstorm" (some 5) (scoreWeather 45 90 "Thunderstorm")
    ∧ "Strong wind advisory — secure loose objects."
        ∈ getSmartAlerts 45 90 20 "Thunderstorm" (some 5) (scoreWeather 45 90 "Thunderstorm")
    ∧ "Very high humidity — may feel uncomfortable."
        ∈ getSmartAlerts 45 90 20 "Thunderstorm" (some 5) (scoreWeather 45 90 "Thunderstorm")
    ∧ "Thunderstorm warning — stay indoors."
        ∈ getSmartAlerts 45 90 20 "Thunderstorm" (some 5) (scoreWeather 45 90 "Thunderstorm")
    ∧ "Air quality is poor — wear a mask outdoors."
        ∈ getSmartAlerts 45 90 20 "Thunderstorm" (some 5) (scoreWeather 45 90 "Thunderstorm")
    ∧ "Hazardous air quality — avoid all outdoor activities."
        ∈ getSmartAlerts 45 90 20 "Thunderstorm" (some 5) (scoreWeather 45 90 "Thunderstorm") := by
  have hs : scoreWeather 45 90 "Thunderstorm" = 0 := by
    have h : hasRST "Thunderstorm" = true := by decide
    norm_num [scoreWeather, scorePre, jsMin, jsMax, h]
  have hT : testCI "Thunder" "Thunderstorm" = true := by decide
  have hS : testCI "Snow" "Thunderstorm" = false := by decide
  have hR : testCI "Rain" "Thunderstorm" = false := by decide
  rw [hs]
  refine ⟨by decide, ?_⟩
  norm_num [getSmartAlerts, hT, hS, hR]

/-! ## Gear Recommendation Engine (`/api/places` handler in `script.js`) -/

/-- The rule-based gear logic of `app.post('/api/places')`: UV rule
(`uv && uv > 5`), lowercased-condition substring rules, temperature
rule (else-if pair), and the "Comfortable Shoes" fallback when nothing
fired. `condition`/`uv` are `none` when absent from the request body. -/
def gearFor (temp : ℚ) (condition : Option String) (uv : Option ℚ) :
    List (String × String) :=
  let g1 : List (String × String) :=
    match uv with
    | some u =>
        if u ≠ 0 ∧ u > 5 then
          [("Sunscreen", "High UV index"), ("Hat/Sunglasses", "Sun protection")]
        else []
    | none => []
  let cond := jsToLower (condition.getD "")
  let g2 := if jsIncludes cond "rain" || jsIncludes cond "drizzle"
               || jsIncludes cond "thunder" then [("Umbrella", "Rain expected")] else []
  let g3 := if jsIncludes cond "snow" then [("Boots", "Snowy conditions")] else []
  let g4 := if temp < 15 then [("Coat/Jacket", "Chilly temperatures")]
            else if temp > 30 then [("Water Bottle", "Stay hydrated in heat")]
            else []
  let g := g1 ++ g2 ++ g3 ++ g4
  if g.isEmpty then [("Comfortable Shoes", "Good for walking")] else g

/-- Claim C8: temp 5, condition "Clear", uv 1 yields exactly the single
entry "Coat/Jacket"; temp 20, condition "Clear", uv 1 fires no rule and
falls back to the single entry "Comfortable Shoes". -/
theorem C8_gear_edge_cases :
    gearFor 5 (some "Clear") (some 1) = [("Coat/Jacket", "Chilly temperatures")]
    ∧ gearFor 20 (some "Clear") (some 1) = [("Comfortable Shoes", "Good for walking")] := by
  have h1 : jsIncludes (jsToLower "Clear") "rain" = false := by decide
  have h2 : jsIncludes (jsToLower "Clear") "drizzle" = false := by decide
  have h3 : jsIncludes (jsToLower "Clear") "thunder" = false := by decide
  have h4 : jsIncludes (jsToLower "Clear") "snow" = false := by decide
  constructor <;> norm_num [gearFor, h1, h2, h3, h4]

/-! ## Response Cache (`getCached` / `setCache` in `script.js`) -/

/-- `CACHE_TTL = 15 * 60 * 1000` milliseconds. -/
def CACHE_TTL : ℤ := 15 * 60 * 1000

/-- One entry of the in-memory `aiCache` map: payload plus creation time. -/
structure CacheEntry where
  data : String
  ts : ℤ
deriving DecidableEq

/-- The `aiCache` map, as a total lookup function. -/
def Cache : Type := String → Option CacheEntry

/-- The value returned by `getCached(key)` at time `now`: absent entries
and entries older than `CACHE_TTL` yield `null`. -/
def getCachedResult (c : Cache) (now : ℤ) (k : String) : Option String :=
  match c k with
  | none => none
  | some e => if now - e.ts > CACHE_TTL then none else some e.data

/-- The cache state after `getCached(key)` at time `now`: an entry found
expired is deleted, otherwise the map is unchanged. -/
def getCachedState (c : Cache) (now : ℤ) (k : String) : Cache :=
  match c k with
  | none => c
  | some e =>
      if now - e.ts > CACHE_TTL then (fun k' => if k' == k then none else c k') else c

/-- `setCache(key, data)` at time `now`: unconditionally overwrite with a
fresh timestamp. -/
def setCache (c : Cache) (now : ℤ) (k v : String) : Cache :=
  fun k' => if k' == k then some ⟨v, now⟩ else c k'

/-- Claim C5: a stored entry is returned while its age is at most the TTL;
once the age exceeds the TTL the read returns absent and deletes the entry,
so any later read of that key also returns absent (no resurrection); and
`set` followed immediately by `get` on the same key returns the new value. -/
theorem C5_cache_ttl (c : Cache) (now : ℤ) (k v : String) (e : CacheEntry) :
    (c k = some e → now - e.ts ≤ CACHE_TTL → getCachedResult c now k = some e.data)
    ∧ (c k = some e → now - e.ts > CACHE_TTL →
        getCachedResult c now k = none
        ∧ ∀ now' : ℤ, getCachedResult (getCachedState c now k) now' k = none)
    ∧ getCachedResult (setCache c now k v) now k = some v := by
  refine ⟨?_, ?_, ?_⟩
  · intro he hle
    simp [getCachedResult, he, not_lt.2 hle]
  · intro he hgt
    refine ⟨by simp [getCachedResult, he, hgt], fun now' => ?_⟩
    simp [getCachedResult, getCachedState, he, hgt]
  · simp [getCachedResult, setCache]
    norm_num [CACHE_TTL]

/-- Witness for C5: a one-entry cache written at time 0 — read back at
time 10 (fresh), read at time 1000000 (expired: absent and purged, still
absent at time 2000000), and a paris/x round trip through `set`. -/
theorem C5_cache_ttl_witness :
    getCachedResult (fun _ => some ⟨"x", 0⟩) 10 "paris" = some "x"
    ∧ getCachedResult (fun _ => some ⟨"x", 0⟩) 1000000 "paris" = none
    ∧ getCachedResult
        (getCachedState (fun _ => some ⟨"x", 0⟩) 1000000 "paris") 2000000 "paris" = none
    ∧ getCachedResult (setCache (fun _ => none) 5 "paris" "x") 5 "paris" = some "x" :=
  ⟨(C5_cache_ttl (fun _ => some ⟨"x", 0⟩) 10 "paris" "x" ⟨"x", 0⟩).1 rfl (by decide),
   ((C5_cache_ttl (fun _ => some ⟨"x", 0⟩) 1000000 "paris" "x" ⟨"x", 0⟩).2.1 rfl
      (by decide)).1,
   ((C5_cache_ttl (fun _ => some ⟨"x", 0⟩) 1000000 "paris" "x" ⟨"x", 0⟩).2.1 rfl
      (by decide)).2 2000000,
   (C5_cache_ttl (fun _ => none) 5 "paris" "x" ⟨"x", 0⟩).2.2⟩

/-! ## Compare-verdict cache key (`/api/compare-verdict` in `script.js`) -/

/-- The cache key `` `compare_${cityA.name.toLowerCase()}_${cityB.name.toLowerCase()}` ``. -/
def compareKey (a b : String) : String :=
  "compare_" ++ jsToLower a ++ "_" ++ jsToLower b

/-- Claim C7 (counterexample): two city names distinct after lowercasing
whose swapped keys coincide, because an underscore inside a name blurs the
separator: A = "x", B = "x_x" give the same key both ways. -/
theorem C7_swapped_keys_can_coincide :
    compareKey "x" "x_x" = compareKey "x_x" "x" ∧ jsToLower "x" ≠ jsToLower "x_x" := by
  constructor <;> decide

/-- If `la` is strictly shorter than `lb`, `lb` has no underscore, and the
two separator-joined lists coincide, we reach a contradiction. -/
theorem sep_join_ne_of_shorter (la lb : List Char) (hb : '_' ∉ lb)
    (hl : la.length < lb.length) (h : la ++ '_' :: lb = lb ++ '_' :: la) : False := by
  have htake : la = lb.take la.length := by
    have h1 := congrArg (List.take la.length) h
    rw [List.take_left, List.take_append_eq_append_take] at h1
    simpa [Nat.sub_eq_zero_of_le (le_of_lt hl)] using h1
  have hsplit : lb = la ++ lb.drop la.length := by
    conv_lhs => rw [← List.take_append_drop la.length lb, ← htake]
  rcases hd : lb.drop la.length with _ | ⟨c, t⟩
  · have := congrArg List.length hsplit
    simp [hd] at this
    omega
  · rw [hsplit, hd] at h
    have h2 : '_' :: (la ++ c :: t) = c :: (t ++ '_' :: la) := by
      have := h
      rw [List.append_assoc] at this
      have h3 := List.append_cancel_left this
      simpa using h3
    have hc : c = '_' := (List.cons.injEq _ _ _ _).mp h2 |>.1.symm
    exact hb (hsplit ▸ List.mem_append_right la (hd ▸ hc ▸ List.mem_cons_self _ _))

/-- Joining two underscore-free lists around an `'_'` separator is
order-injective: equal joins force equal lists. -/
theorem sep_join_inj (la lb : List Char) (ha : '_' ∉ la) (hb : '_' ∉ lb)
    (h : la ++ '_' :: lb = lb ++ '_' :: la) : la = lb := by
  rcases lt_trichotomy la.length lb.length with hl | hl | hl
  · exact (sep_join_ne_of_shorter la lb hb hl h).elim
  · exact (List.append_inj h hl).1
  · exact (sep_join_ne_of_shorter lb la ha hl h.symm).elim

/-- Claim C7 (amended): for city names whose lowercasings are distinct and
contain no underscore, the compare-verdict cache keys built from (A, B)
and from (B, A) differ, so the two orderings hit independent entries.
(With underscores allowed, distinct names can collide — see the
counterexample.) -/
theorem C7_compare_key_order_sensitive (a b : String)
    (ha : '_' ∉ (jsToLower a).data) (hb : '_' ∉ (jsToLower b).data)
    (hne : jsToLower a ≠ jsToLower b) : compareKey a b ≠ compareKey b a := by
  intro h
  apply hne
  have hd := congrArg String.data h
  simp only [compareKey, String.data_append] at hd
  simp only [List.append_assoc, List.singleton_append] at hd
  have hd2 : (jsToLower a).data ++ '_' :: (jsToLower b).data
      = (jsToLower b).data ++ '_' :: (jsToLower a).data :=
    List.append_cancel_left hd
  exact String.ext (sep_join_inj _ _ ha hb hd2)

/-- Witness for C7: "Paris" and "London" — lowercased, distinct,
underscore-free — produce different keys in the two orders. -/
theorem C7_compare_key_order_sensitive_witness :
    compareKey "Paris" "London" ≠ compareKey "London" "Paris" :=
  C7_compare_key_order_sensitive "Paris" "London" (by decide) (by decide) (by decide)

/-! ## Structured-Text Parser (`renderTravelAdvice` in `script.js`)

The scan mirrors the loop over `text.split('\n')`: a trimmed line matching
`/^(PLACES|NEARBY|WEAR|EAT|ALERT)\s*:\s*(.*)/i` switches (and resets) the
current section; other non-blank lines are appended to the current section;
lines before any label are dropped. -/

/-- The five advice section labels. -/
inductive SKey
  | places
  | nearby
  | wear
  | eat
  | alert
deriving DecidableEq, Repr

/-- The literal token of a section label. -/
def keyToken : SKey → List Char
  | .places => "PLACES".data
  | .nearby => "NEARBY".data
  | .wear => "WEAR".data
  | .eat => "EAT".data
  | .alert => "ALERT".data

/-- Try one alternative of the section regex on a (trimmed) line:
case-insensitive label, `\s*`, a colon, `\s*`, then the captured rest. -/
def tryKey (k : SKey) (l : List Char) : Option (List Char) :=
  match ciStarts (keyToken k) l with
  | none => none
  | some r =>
      match dropWs r with
      | ':' :: r2 => some (dropWs r2)
      | _ => none

/-- `trimmed.match(/^(PLACES|NEARBY|WEAR|EAT|ALERT)\s*:\s*(.*)/i)`:
the matched key (uppercased by construction) and the captured rest.
The five labels start with distinct letters, so alternation order is
irrelevant; we keep the source order. -/
def matchSection (l : List Char) : Option (SKey × List Char) :=
  match tryKey .places l with
  | some r => some (.places, r)
  | none =>
  match tryKey .nearby l with
  | some r => some (.nearby, r)
  | none =>
  match tryKey .wear l with
  | some r => some (.wear, r)
  | none =>
  match tryKey .eat l with
  | some r => some (.eat, r)
  | none =>
  match tryKey .alert l with
  | some r => some (.alert, r)
  | none => none

/-- The mutable state of the scan loop: the `sections` object (a section
absent from the JS object and one holding `[]` are indistinguishable to
every consumer, so both are modelled as `[]`) and `currentKey` (`''`,
i.e. `none`, before the first label). -/
structure ScanState where
  places : List String
  nearby : List String
  wear : List String
  eat : List String
  alert : List String
  currentKey : Option SKey
deriving DecidableEq, Repr

/-- State at loop entry. -/
def initState : ScanState := ⟨[], [], [], [], [], none⟩

/-- Overwrite one section's accumulated lines. -/
def setSec (st : ScanState) (k : SKey) (v : List String) : ScanState :=
  match k with
  | .places => { st with places := v }
  | .nearby => { st with nearby := v }
  | .wear => { st with wear := v }
  | .eat => { st with eat := v }
  | .alert => { st with alert := v }

/-- Read one section's accumulated lines. -/
def getSec (st : ScanState) (k : SKey) : List String :=
  match k with
  | .places => st.places
  | .nearby => st.nearby
  | .wear => st.wear
  | .eat => st.eat
  | .alert => st.alert

/-- `sections[currentKey].push(trimmed)`. -/
def pushSec (st : ScanState) (k : SKey) (line : String) : ScanState :=
  setSec st k (getSec st k ++ [line])

/-- `currentKey = ...`. -/
def setCK (st : ScanState) (c : Option SKey) : ScanState :=
  { st with currentKey := c }

/-- One iteration of the scan loop body. -/
def scanLine (st : ScanState) (line : String) : ScanState :=
  let t := jsTrim line
  if t.data.isEmpty then st
  else
    match matchSection t.data with
    | some (k, r) =>
        setCK (setSec st k (if r.isEmpty then [] else [String.mk r])) (some k)
    | none =>
        match st.currentKey with
        | some k => pushSec st k t
        | none => st

/-- Split a character list at newline characters (JS `split('\n')`):
`n` newlines yield `n+1` pieces, empty pieces included. -/
def splitNl (l : List Char) : List (List Char) :=
  match l with
  | [] => [[]]
  | c :: r =>
      let rest := splitNl r
      if c == '\n' then [] :: rest
      else
        match rest with
        | h :: t => (c :: h) :: t
        | [] => [[c]]

/-- JS `text.split('\n')` on strings. -/
def jsSplitNl (s : String) : List String := (splitNl s.data).map String.mk

/-- The whole scan of the advice text. -/
def scanText (text : String) : ScanState :=
  (jsSplitNl text).foldl scanLine initState

/-! ### Place-item sub-parser

`l.match(/^\d+\.\s*(.+?)\s*[-–]\s*(.+)$/)` with JS backtracking: the split
happens at the first hyphen/en-dash that is preceded by at least one
character (after the numeric prefix) and followed by at least one
character; whitespace around the dash is absorbed by the `\s*` groups,
with the lazy/greedy priorities spelled out below. -/

/-- Hyphen or en-dash, the `[-–]` class. -/
def isDash (c : Char) : Bool := c == '-' || c == '–'

/-- The `\s*(.+)$` part after the dash: greedy whitespace skip, but if
everything after the dash is whitespace the greedy `\s*` backtracks one
character so that `(.+)` can take it. `r` is nonempty at every call site. -/
def descFrom (r : List Char) : List Char :=
  let w := r.takeWhile isWs
  if w.length == r.length then r.drop (r.length - 1) else r.dropWhile isWs

/-- Scan for the splitting dash: first dash after at least one consumed
character that still has a character after it; the captured name is the
consumed part minus trailing whitespace (absorbed by the middle `\s*`). -/
def mainScan (pre r : List Char) : Option (List Char × List Char) :=
  match r with
  | [] => none
  | c :: r' =>
      if isDash c && !r'.isEmpty then
        some ((pre.reverse.dropWhile isWs).reverse, descFrom r')
      else mainScan (pre ++ [c]) r'

/-- Full match of `/^\d+\.\s*(.+?)\s*[-–]\s*(.+)$/` on a line, returning
the two captures. The fallback arm reproduces the engine backtracking the
leading `\s*` by one character when the non-whitespace body itself starts
with the only usable dash (the capture then holds a single whitespace
character). -/
def numLineSplit (l : List Char) : Option (List Char × List Char) :=
  let ds := l.takeWhile Char.isDigit
  let r1 := l.dropWhile Char.isDigit
  if ds.isEmpty then none
  else
    match r1 with
    | '.' :: r2 =>
        let w := r2.takeWhile isWs
        let body := r2.dropWhile isWs
        (match body with
         | [] => none
         | c0 :: b' => mainScan [c0] b')
        <|>
        (match body with
         | c0 :: b' =>
             if !w.isEmpty && isDash c0 && !b'.isEmpty then
               some ([w.getLastD ' '], descFrom b')
             else none
         | [] => none)
    | _ => none

/-- Remove emphasis markers: `replace(/[*]/g, '')`. -/
def stripStars (l : List Char) : List Char := l.filter (fun c => c ≠ '*')

/-- Strip asterisks and trim, the cleanup applied to every emitted field. -/
def cleanStr (l : List Char) : String := String.mk (trimChars (stripStars l))

/-- The body of `parsePlaces`'s `map`: a matched line yields cleaned
(name, desc); otherwise the line minus any `^\d+\.\s*` prefix and
asterisks becomes the name, and a line that cleans to empty is dropped. -/
def parsePlaceLine (line : String) : Option (String × String) :=
  match numLineSplit line.data with
  | some (g1, g2) => some (cleanStr g1, cleanStr g2)
  | none =>
      let l := line.data
      let ds := l.takeWhile Char.isDigit
      let r1 := l.dropWhile Char.isDigit
      let stripped :=
        if !ds.isEmpty then
          match r1 with
          | '.' :: r2 => r2.dropWhile isWs
          | _ => l
        else l
      let clean := cleanStr stripped
      if clean.data.isEmpty then none else some (clean, "")

/-- `parsePlaces(lines)`: map then `filter(Boolean)`. -/
def parsePlaces (lines : List String) : List (String × String) :=
  lines.filterMap parsePlaceLine

/-- The parsed advice document handed to rendering. -/
structure AdviceDoc where
  places : List (String × String)
  nearby : List (String × String)
  wear : String
  eat : String
  alert : String
deriving DecidableEq, Repr

/-- `(sections.KEY || []).join(' ').replace(/[*]/g, '').trim()`. -/
def joinClean (lines : List String) : String :=
  cleanStr (String.intercalate " " lines).data

/-- The parsing part of `renderTravelAdvice`. -/
def parseAdvice (text : String) : AdviceDoc :=
  let st := scanText text
  { places := parsePlaces st.places
    nearby := parsePlaces st.nearby
    wear := joinClean st.wear
    eat := joinClean st.eat
    alert := joinClean st.alert }

/-- The quick-tips strip: wear and eat when non-empty, and the alert
unless empty or a literal (case-insensitive) "none"/"none.". -/
def tipsOf (d : AdviceDoc) : List (String × String) :=
  (if !d.wear.data.isEmpty then [("🧥", d.wear)] else [])
  ++ (if !d.eat.data.isEmpty then [("🍽️", d.eat)] else [])
  ++ (if !d.alert.data.isEmpty && jsToLower d.alert ≠ "none"
         && jsToLower d.alert ≠ "none." then [("⚠️", d.alert)] else [])

/-- Claim C3: the round-trip on the five-section sample text — places,
nearby, wear, eat and alert parse to the expected values, and the tips
strip excludes the "None" alert. -/
theorem C3_parser_round_trip :
    parseAdvice
        "PLACES:\n1. Eiffel Tower - Iconic landmark\nNEARBY:\n1. Versailles - 20km, royal palace\nWEAR: Light jacket\nEAT: Croissant at a cafe\nALERT: None"
      = { places := [("Eiffel Tower", "Iconic landmark")]
          nearby := [("Versailles", "20km, royal palace")]
          wear := "Light jacket"
          eat := "Croissant at a cafe"
          alert := "None" }
    ∧ tipsOf (parseAdvice
        "PLACES:\n1. Eiffel Tower - Iconic landmark\nNEARBY:\n1. Versailles - 20km, royal palace\nWEAR: Light jacket\nEAT: Croissant at a cafe\nALERT: None")
      = [("🧥", "Light jacket"), ("🍽️", "Croissant at a cafe")] := by
  constructor <;> decide

/-- A scan step on a line with no section label leaves the initial state
unchanged (blank and unlabeled leading lines are dropped). -/
theorem scanLine_init (l : String) (hm : matchSection (jsTrim l).data = none) :
    scanLine initState l = initState := by
  simp [scanLine, hm, initState]

/-- A whole scan over label-free lines stays at the initial state. -/
theorem scan_labelless (ls : List String)
    (h : ∀ l ∈ ls, matchSection (jsTrim l).data = none) :
    ls.foldl scanLine initState = initState := by
  induction ls with
  | nil => rfl
  | cons l ls ih =>
      rw [List.foldl_cons, scanLine_init l (h l (List.mem_cons_self l ls))]
      exact ih fun x hx => h x (List.mem_cons_of_mem l hx)

/-- Claim C4: parsing is total (the embedding is a total function) and on
text none of whose lines carries a section label it returns the document
with every section empty — never an error. -/
theorem C4_parser_degrades_gracefully (text : String)
    (h : ∀ l ∈ jsSplitNl text, matchSection (jsTrim l).data = none) :
    parseAdvice text = { places := [], nearby := [], wear := "", eat := "", alert := "" } := by
  unfold parseAdvice scanText
  rw [scan_labelless _ h]
  rfl

/-- Witness for C4: two lines of arbitrary prose with no labels parse to
the all-empty document. -/
theorem C4_parser_degrades_gracefully_witness :
    (∀ l ∈ jsSplitNl "just some prose 42\nwith, no labels: at all",
        matchSection (jsTrim l).data = none)
    ∧ parseAdvice "just some prose 42\nwith, no labels: at all"
        = { places := [], nearby := [], wear := "", eat := "", alert := "" } :=
  ⟨by decide, C4_parser_degrades_gracefully _ (by decide)⟩

/-- Reading a section other than the one just overwritten sees the old
state; reading the overwritten one sees the new lines. -/
theorem getSec_setSec (st : ScanState) (k k' : SKey) (v : List String) :
    getSec (setSec st k' v) k = if k = k' then v else getSec st k := by
  cases k <;> cases k' <;> simp [getSec, setSec]

/-- `setSec` does not touch `currentKey`. -/
theorem currentKey_setSec (st : ScanState) (k' : SKey) (v : List String) :
    (setSec st k' v).currentKey = st.currentKey := by
  cases k' <;> rfl

/-- Updating `currentKey` does not touch the sections. -/
theorem getSec_setCK (st : ScanState) (c : Option SKey) (k : SKey) :
    getSec (setCK st c) k = getSec st k := by
  cases k <;> rfl

/-- The empty line never matches a section label. -/
theorem matchSection_nil : matchSection ([] : List Char) = none := by decide

/-- A line matching a section label resets that section from scratch,
independently of the incoming state. -/
theorem scanLine_label (s : ScanState) (line : String) (k : SKey) (r : List Char)
    (hm : matchSection (jsTrim line).data = some (k, r)) :
    scanLine s line
      = setCK (setSec s k (if r.isEmpty then [] else [String.mk r])) (some k) := by
  have he : (jsTrim line).data.isEmpty = false := by
    cases hd : (jsTrim line).data with
    | nil => rw [hd, matchSection_nil] at hm; cases hm
    | cons c cs => rfl
  simp [scanLine, he, hm]

/-- One scan step preserves agreement of two states on `currentKey` and on
a fixed section `k`. -/
theorem scanLine_agree (k : SKey) (l : String) (s t : ScanState)
    (h1 : s.currentKey = t.currentKey) (h2 : getSec s k = getSec t k) :
    (scanLine s l).currentKey = (scanLine t l).currentKey
    ∧ getSec (scanLine s l) k = getSec (scanLine t l) k := by
  by_cases he : (jsTrim l).data.isEmpty
  · simp [scanLine, he, h1, h2]
  · cases hm : matchSection (jsTrim l).data with
    | some kr =>
        obtain ⟨k', r⟩ := kr
        rw [scanLine_label s l k' r hm, scanLine_label t l k' r hm]
        refine ⟨rfl, ?_⟩
        rw [getSec_setCK, getSec_setCK, getSec_setSec, getSec_setSec]
        split
        · rfl
        · exact h2
    | none =>
        cases hck : s.currentKey with
        | none =>
            have hck' : t.currentKey = none := h1 ▸ hck
            simp [scanLine, he, hm, hck, hck', h1, h2]
        | some k'' =>
            have hck' : t.currentKey = some k'' := h1 ▸ hck
            simp only [scanLine, he, Bool.false_eq_true, if_false, hm, hck, hck']
            refine ⟨?_, ?_⟩
            · rw [pushSec, pushSec, currentKey_setSec, currentKey_setSec, hck, hck']
            · rw [pushSec, pushSec, getSec_setSec, getSec_setSec]
              split
              · next hkk => rw [← hkk, h2]
              · exact h2

/-- Agreement on `currentKey` and on section `k` is preserved by a whole
scan, whatever the lines. -/
theorem foldl_agree (k : SKey) (ls : List String) :
    ∀ s t : ScanState, s.currentKey = t.currentKey → getSec s k = getSec t k →
      (ls.foldl scanLine s).currentKey = (ls.foldl scanLine t).currentKey
      ∧ getSec (ls.foldl scanLine s) k = getSec (ls.foldl scanLine t) k := by
  induction ls with
  | nil => exact fun s t h1 h2 => ⟨h1, h2⟩
  | cons l ls ih =>
      intro s t h1 h2
      obtain ⟨g1, g2⟩ := scanLine_agree k l s t h1 h2
      exact ih _ _ g1 g2

/-- Claim C10: when a section label line occurs, everything previously
accumulated is irrelevant to that section: the section's final content
after the whole text equals its content when scanning starts at that label
line (in particular a repeated label with empty rest resets the section to
empty). Applied at the last occurrence of a label this says the section
holds only lines attributed after the last occurrence. -/
theorem C10_repeated_label_resets (pre post : List String) (line : String)
    (k : SKey) (r : List Char)
    (hm : matchSection (jsTrim line).data = some (k, r)) :
    getSec ((pre ++ line :: post).foldl scanLine initState) k
      = getSec ((line :: post).foldl scanLine initState) k := by
  rw [List.foldl_append, List.foldl_cons, List.foldl_cons]
  refine (foldl_agree k post _ _ ?_ ?_).2
  · rw [scanLine_label _ line k r hm, scanLine_label initState line k r hm]
    rfl
  · rw [scanLine_label _ line k r hm, scanLine_label initState line k r hm,
      getSec_setCK, getSec_setCK, getSec_setSec, getSec_setSec]
    simp

/-- Witness for C10: a PLACES section filled before a bare repeated
`PLACES:` label is discarded; the section ends up as if the text had
started at the second label. -/
theorem C10_repeated_label_resets_witness :
    matchSection (jsTrim "PLACES:").data = some (.places, [])
    ∧ getSec ((["PLACES: old", "stale line"] ++ "PLACES:" :: ["1. A - b"]).foldl
        scanLine initState) .places
      = getSec (("PLACES:" :: ["1. A - b"]).foldl scanLine initState) .places :=
  ⟨by decide,
   C10_repeated_label_resets ["PLACES: old", "stale line"] ["1. A - b"] "PLACES:"
     .places [] (by decide)⟩

/-! ## Verdict parser (`renderVerdict`, listed in `README.md`)

The three extractions `/LABEL:\s*(.+?)(?=STOP:|$)/s` are modelled with the
engine's priorities: leftmost label occurrence, greedy whitespace skip,
then the lazy capture grows one character at a time until the stop label
or the end of the text is reached. -/

/-- Grow the lazy `(.+?)` capture until the stop label starts at the
boundary or the text ends. -/
def lazyGrow (stop : List Char) (acc r : List Char) : List Char :=
  match r with
  | [] => acc
  | c :: r' => if csStarts stop r then acc else lazyGrow stop (acc ++ [c]) r'

/-- Capture after one label occurrence: `\s*(.+?)(?=STOP|$)` on the
remaining characters `r`; `none` when no character is left to capture.
When everything after the label is whitespace, the greedy `\s*` backtracks
one step so that `(.+?)` takes the final whitespace character. -/
def captureAfter (r : List Char) (stop : Option (List Char)) : Option (List Char) :=
  match r with
  | [] => none
  | _ :: _ =>
      let body := r.dropWhile isWs
      match body with
      | [] => some [r.getLastD ' ']
      | c0 :: b' =>
          some (match stop with
                | none => c0 :: b'
                | some sl => lazyGrow sl [c0] b')

/-- Find the leftmost label occurrence at which the whole pattern matches
(the regex engine retries later occurrences if the capture has no
character to take). -/
def findLabel (label : List Char) (s : List Char) (stop : Option (List Char)) :
    Option (List Char) :=
  match s with
  | [] => none
  | _ :: rest =>
      if csStarts label s then
        match captureAfter (s.drop label.length) stop with
        | some cap => some cap
        | none => findLabel label rest stop
      else findLabel label rest stop

/-- `text.match(/LABEL:\s*(.+?)(?=STOP:|$)/s)?.[1]` as a string. -/
def matchCap (label : String) (stop : Option String) (text : String) : Option String :=
  (findLabel label.data text.data (stop.map String.data)).map String.mk

/-- What the verdict consumer renders. -/
inductive VerdictView
  | raw (text : String)
  | structured (comparison winner reason : String)
deriving DecidableEq, Repr

/-- `renderVerdict(text, ...)` from `README.md`: extract COMPARISON /
WINNER / REASON; if the winner is missing or trims to empty, fall back to
rendering the complete raw text. -/
def renderVerdict (text : String) : VerdictView :=
  let comparison := ((matchCap "COMPARISON:" (some "WINNER:") text).map jsTrim).getD ""
  let winner := ((matchCap "WINNER:" (some "REASON:") text).map jsTrim).getD ""
  let reason := ((matchCap "REASON:" none text).map jsTrim).getD ""
  if winner.data.isEmpty then .raw text else .structured comparison winner reason

/-- Claim C9: whenever the WINNER label fails to resolve to a non-empty
string the consumer shows the complete raw text, and whenever it resolves
the structured (comparison, winner, reason) view is shown. -/
theorem C9_verdict_raw_fallback (text : String) :
    (((matchCap "WINNER:" (some "REASON:") text).map jsTrim).getD "" = "" →
        renderVerdict text = .raw text)
    ∧ (((matchCap "WINNER:" (some "REASON:") text).map jsTrim).getD "" ≠ "" →
        renderVerdict text = .structured
          (((matchCap "COMPARISON:" (some "WINNER:") text).map jsTrim).getD "")
          (((matchCap "WINNER:" (some "REASON:") text).map jsTrim).getD "")
          (((matchCap "REASON:" none text).map jsTrim).getD "")) := by
  have hempty : ∀ s : String, s.data.isEmpty = true ↔ s = "" := by
    intro s
    rw [List.isEmpty_iff]
    constructor
    · intro h
      exact String.ext h
    · intro h
      rw [h]
  constructor
  · intro h
    unfold renderVerdict
    rw [if_pos ((hempty _).mpr h)]
  · intro h
    unfold renderVerdict
    rw [if_neg (fun he => h ((hempty _).mp he))]

/-- Witness for C9: a label-free text falls back to raw mode, while a
well-formed verdict renders the structured view. -/
theorem C9_verdict_raw_fallback_witness :
    renderVerdict "the model returned nothing structured"
      = .raw "the model returned nothing structured"
    ∧ renderVerdict "COMPARISON: A is milder\nWINNER: A\nREASON: warmer today"
      = .structured "A is milder" "A" "warmer today" := by
  constructor
  · exact (C9_verdict_raw_fallback "the model returned nothing structured").1 (by decide)
  · rw [(C9_verdict_raw_fallback
      "COMPARISON: A is milder\nWINNER: A\nREASON: warmer today").2 (by decide)]
    decide

end Climago
